import Mathlib

/-!
Verification of the statistical-analysis core of the `data_analysis` package
(`statistical_analysis.py`), shallowly embedded in Lean 4.

Modelling conventions:
* A pandas cell is a `Cell`: a finite rational number, a string label, or the
  missing marker (NaN).  A data frame is a list of rows; a row maps column
  names to cells (the code trusts the named columns to exist).
* Float results that may be NaN (or otherwise non-finite) are `Option ℚ`,
  with `none` standing for the non-finite case; arithmetic propagates `none`
  the way IEEE arithmetic propagates NaN, and division by zero yields `none`.
* Calls into the external numerical libraries (numpy's square root, scipy's
  Shapiro-Wilk, Levene, t-test and Mann-Whitney routines, and the normal
  distribution's cdf/ppf) are uninterpreted function parameters, collected in
  `StatsLib` and `NormLib`; theorems about the repository's own control flow
  hold for every instantiation of these parameters.
-/

namespace DataAnalysis

/-- Embeds `config.ALPHA`: the process-wide significance level 0.05. -/
def ALPHA : ℚ := 1/20

/-- Embeds `config.MIN_SUBGROUP_SIZE`: minimum sample size for subgroup analysis. -/
def MIN_SUBGROUP_SIZE : ℕ := 10

/-- A pandas cell: a finite numeric value, a string label, or NaN. -/
inductive Cell where
  | num (q : ℚ)
  | str (s : String)
  | missing
deriving DecidableEq, Repr

/-- Elementwise pandas `==` semantics: NaN compares unequal to everything,
including itself, and numbers never equal strings. -/
def Cell.matches : Cell → Cell → Bool
  | .num a, .num b => a == b
  | .str a, .str b => a == b
  | _, _ => false

/-- A row of the observation table: column name to cell. -/
def Row : Type := String → Cell

/-- The observation table (`pandas.DataFrame`): an ordered list of rows. -/
def Frame : Type := List Row

/-- The cells of one column, in row order (`data[col]`). -/
def colCells (data : Frame) (col : String) : List Cell :=
  data.map (fun r => r col)

/-- Worker for `Series.unique()`: distinct values in order of first appearance,
skipping those already seen. -/
def uniqueAux (seen : List Cell) : List Cell → List Cell
  | [] => []
  | c :: rest => if c ∈ seen then uniqueAux seen rest else c :: uniqueAux (c :: seen) rest

/-- Embeds `Series.unique()`: distinct values in order of first appearance.  NaN is
kept as one of the distinct values, as pandas does. -/
def uniqueCells (l : List Cell) : List Cell := uniqueAux [] l

/-- Embeds `series.dropna()` for a numeric column: keep the finite numeric cells. -/
def seriesDropna (l : List Cell) : List ℚ :=
  l.filterMap (fun c => match c with | .num q => some q | _ => none)

/-- Embeds `data[data[group_col] == g][measure_col].dropna()`. -/
def groupData (data : Frame) (group_col : String) (g : Cell) (measure_col : String) : List ℚ :=
  seriesDropna (colCells (data.filter (fun r => (r group_col).matches g)) measure_col)

/-- Embeds `series.mean()`: NaN on an empty series. -/
def seriesMean (l : List ℚ) : Option ℚ :=
  if l.length = 0 then none else some (l.sum / (l.length : ℚ))

/-- Embeds `series.var()` (`ddof=1` sample variance): NaN when fewer than two
observations. -/
def seriesVar (l : List ℚ) : Option ℚ :=
  if l.length < 2 then none
  else some (((l.map (fun x => (x - l.sum / (l.length : ℚ))^2)).sum) / ((l.length : ℚ) - 1))

/-- Embeds `series.min()`: NaN on an empty series. -/
def seriesMin (l : List ℚ) : Option ℚ :=
  l.foldr (fun x acc => match acc with | none => some x | some m => some (min x m)) none

/-- Embeds `series.max()`: NaN on an empty series. -/
def seriesMax (l : List ℚ) : Option ℚ :=
  l.foldr (fun x acc => match acc with | none => some x | some m => some (max x m)) none

/-- Insert into a sorted list (ascending). -/
def insertSorted (x : ℚ) : List ℚ → List ℚ
  | [] => [x]
  | y :: ys => if x ≤ y then x :: y :: ys else y :: insertSorted x ys

/-- Ascending sort, used by the quantile computation. -/
def sortAsc (l : List ℚ) : List ℚ := l.foldr insertSorted []

/-- Embeds `series.quantile(p)` with pandas' default linear interpolation:
NaN on an empty series; otherwise interpolate at position `p * (n - 1)`
of the sorted values. -/
def seriesQuantile (l : List ℚ) (p : ℚ) : Option ℚ :=
  if l.length = 0 then none
  else
    let s := sortAsc l
    let n := s.length
    let h : ℚ := p * ((n : ℚ) - 1)
    let i : ℕ := h.floor.toNat
    let frac : ℚ := h - (i : ℚ)
    some (s.getD i 0 + frac * (s.getD (min (i+1) (n-1)) 0 - s.getD i 0))

/-- Embeds `series.median()` = `series.quantile(0.5)`. -/
def seriesMedian (l : List ℚ) : Option ℚ := seriesQuantile l (1/2)

/-- NaN-propagating addition on floats. -/
def pAdd : Option ℚ → Option ℚ → Option ℚ
  | some a, some b => some (a + b)
  | _, _ => none

/-- NaN-propagating subtraction on floats. -/
def pSub : Option ℚ → Option ℚ → Option ℚ
  | some a, some b => some (a - b)
  | _, _ => none

/-- NaN-propagating multiplication on floats (IEEE: `0 * NaN = NaN`). -/
def pMul : Option ℚ → Option ℚ → Option ℚ
  | some a, some b => some (a * b)
  | _, _ => none

/-- NaN-propagating division; division by zero is non-finite (inf or NaN in
Python) and is likewise modelled as `none`. -/
def pDiv : Option ℚ → Option ℚ → Option ℚ
  | some a, some b => if b = 0 then none else some (a / b)
  | _, _ => none

/-- Per-group descriptive record of `calculate_descriptive_stats`. -/
structure DescStats where
  n : ℕ
  mean : Option ℚ
  std : Option ℚ
  median : Option ℚ
  q25 : Option ℚ
  q75 : Option ℚ
  min : Option ℚ
  max : Option ℚ
deriving DecidableEq, Repr

/-- Embeds `calculate_descriptive_stats(data, group_col, measure_col)`: for each
distinct group value, the descriptive record over the non-missing outcome
values of that group.  `sqrtO` models `numpy`'s square root, used by
`series.std()` (the square root of the `ddof=1` variance). -/
def calculate_descriptive_stats (sqrtO : ℚ → ℚ) (data : Frame)
    (group_col measure_col : String) : List (Cell × DescStats) :=
  (uniqueCells (colCells data group_col)).map (fun g =>
    let gd := groupData data group_col g measure_col
    (g, { n := gd.length
          mean := seriesMean gd
          std := (seriesVar gd).map sqrtO
          median := seriesMedian gd
          q25 := seriesQuantile gd (1/4)
          q75 := seriesQuantile gd (3/4)
          min := seriesMin gd
          max := seriesMax gd }))

/-- The `'cohen_d'` branch of `calculate_effect_size`:
`(mean1 - mean2) / sqrt(((n1-1)*var1 + (n2-1)*var2) / (n1+n2-2))`. -/
def cohenD (sqrtO : ℚ → ℚ) (group1 group2 : List ℚ) : Option ℚ :=
  let pooled_var :=
    pDiv (pAdd (pMul (some ((group1.length : ℚ) - 1)) (seriesVar group1))
               (pMul (some ((group2.length : ℚ) - 1)) (seriesVar group2)))
         (some ((group1.length : ℚ) + (group2.length : ℚ) - 2))
  let pooled_std := pooled_var.map sqrtO
  pDiv (pSub (seriesMean group1) (seriesMean group2)) pooled_std

/-- Hedges' bias-correction factor `1 - 3 / (4*(n1+n2) - 9)`. -/
def hedgesCorrection (n1 n2 : ℕ) : ℚ :=
  1 - 3 / (4 * ((n1 : ℚ) + (n2 : ℚ)) - 9)

/-- Embeds `calculate_effect_size(group1, group2, method)`.  The outer `Option` is
Python's `None`: the `if/elif` chain has no `else`, so an unrecognized
method falls through and the function returns `None`.  The inner `Option ℚ`
is the float result (`none` = non-finite). -/
def calculate_effect_size (sqrtO : ℚ → ℚ) (group1 group2 : List ℚ)
    (method : String) : Option (Option ℚ) :=
  if method = "cohen_d" then
    some (cohenD sqrtO group1 group2)
  else if method = "glass_delta" then
    some (pDiv (pSub (seriesMean group1) (seriesMean group2))
               ((seriesVar group2).map sqrtO))
  else if method = "hedges_g" then
    some (pMul (cohenD sqrtO group1 group2)
               (some (hedgesCorrection group1.length group2.length)))
  else
    none

/-- Uninterpreted scipy/numpy routines used by the test battery: each maps the
sample(s) to a `(statistic, p_value)` pair; `sqrtO` models `np.sqrt`. -/
structure StatsLib where
  sqrtO : ℚ → ℚ
  shapiroO : List ℚ → ℚ × ℚ
  leveneO : List (List ℚ) → ℚ × ℚ
  ttestO : List ℚ → List ℚ → ℚ × ℚ
  mannwhitneyO : List ℚ → List ℚ → ℚ × ℚ

/-- A `{statistic, p_value, significant}` sub-record of the result bundle. -/
structure TestResult where
  statistic : ℚ
  p_value : ℚ
  significant : Bool
deriving DecidableEq, Repr

/-- Per-group record of `test_normality`; `is_normal = none` models Python's
`None` (undetermined, fewer than 3 observations). -/
structure NormalityResult where
  statistic : Option ℚ
  p_value : Option ℚ
  is_normal : Option Bool
deriving DecidableEq, Repr

/-- Record of `test_homoscedasticity`; `equal_variances = none` models
Python's `None` (fewer than 2 groups, or some group empty). -/
structure HomoscedResult where
  statistic : Option ℚ
  p_value : Option ℚ
  equal_variances : Option Bool
deriving DecidableEq, Repr

/-- Embeds `test_normality(data, group_col, measure_col)`: Shapiro-Wilk per group
when the group has at least 3 non-missing observations, else the undetermined
record. -/
def test_normality (shapiroO : List ℚ → ℚ × ℚ) (data : Frame)
    (group_col measure_col : String) : List (Cell × NormalityResult) :=
  (uniqueCells (colCells data group_col)).map (fun g =>
    let gd := groupData data group_col g measure_col
    if 3 ≤ gd.length then
      let r := shapiroO gd
      (g, { statistic := some r.1, p_value := some r.2,
            is_normal := some (decide (ALPHA < r.2)) })
    else
      (g, { statistic := none, p_value := none, is_normal := none }))

/-- Embeds `test_homoscedasticity(data, group_col, measure_col)`: Levene's test
across all groups when there are at least 2 groups, each non-empty. -/
def test_homoscedasticity (leveneO : List (List ℚ) → ℚ × ℚ) (data : Frame)
    (group_col measure_col : String) : HomoscedResult :=
  let groups := (uniqueCells (colCells data group_col)).map
    (fun g => groupData data group_col g measure_col)
  if 2 ≤ groups.length ∧ ∀ g ∈ groups, 0 < g.length then
    let r := leveneO groups
    { statistic := some r.1, p_value := some r.2,
      equal_variances := some (decide (ALPHA < r.2)) }
  else
    { statistic := none, p_value := none, equal_variances := none }

/-- The dict returned by `run_statistical_tests`. -/
structure TestBundle where
  descriptives : List (Cell × DescStats)
  effect_size : Option (Option ℚ)
  hedges_g : Option (Option ℚ)
  glass_delta : Option (Option ℚ)
  t_test : TestResult
  mann_whitney : TestResult
  normality : List (Cell × NormalityResult)
  homoscedasticity : HomoscedResult
  recommended_test : String
  recommended_p : ℚ
deriving DecidableEq, Repr

/-- The `ValueError(f"Expected 2 groups, got {len(groups)}: {groups}")`
raised by `run_statistical_tests`, carrying the data of its message. -/
inductive BatteryError where
  | valueError (expected got : ℕ) (groups : List Cell)
deriving DecidableEq, Repr

/-- The `group1_data` of `run_statistical_tests`: the non-missing outcome values
of the first-encountered group value. -/
def batteryGroup1 (data : Frame) (group_col measure_col : String) : List ℚ :=
  groupData data group_col ((uniqueCells (colCells data group_col)).getD 0 .missing) measure_col

/-- The `group2_data` of `run_statistical_tests`: the non-missing outcome values
of the second-encountered group value. -/
def batteryGroup2 (data : Frame) (group_col measure_col : String) : List ℚ :=
  groupData data group_col ((uniqueCells (colCells data group_col)).getD 1 .missing) measure_col

/-- The test-selection condition of `run_statistical_tests`:
`normality_ok and equal_var_ok`, where `normality_ok` is
`all(r.get('is_normal', False) for r in normality.values()
     if r.get('is_normal') is not None)`
and `equal_var_ok` (`.get('equal_variances', False)`, possibly `None`) is
truthy exactly when it is `True`. -/
def recommendT (lib : StatsLib) (data : Frame) (group_col measure_col : String) : Bool :=
  ((test_normality lib.shapiroO data group_col measure_col).filter
      (fun p => p.2.is_normal.isSome)).all (fun p => p.2.is_normal.getD false)
    && decide ((test_homoscedasticity lib.leveneO data group_col measure_col).equal_variances
                = some true)

/-- The `results` dict assembled by `run_statistical_tests` after its
two-group validation has passed. -/
def buildBundle (lib : StatsLib) (data : Frame) (group_col measure_col : String) : TestBundle :=
  { descriptives := calculate_descriptive_stats lib.sqrtO data group_col measure_col
    effect_size := calculate_effect_size lib.sqrtO (batteryGroup1 data group_col measure_col)
      (batteryGroup2 data group_col measure_col) "cohen_d"
    hedges_g := calculate_effect_size lib.sqrtO (batteryGroup1 data group_col measure_col)
      (batteryGroup2 data group_col measure_col) "hedges_g"
    glass_delta := calculate_effect_size lib.sqrtO (batteryGroup1 data group_col measure_col)
      (batteryGroup2 data group_col measure_col) "glass_delta"
    t_test :=
      { statistic := (lib.ttestO (batteryGroup1 data group_col measure_col)
          (batteryGroup2 data group_col measure_col)).1
        p_value := (lib.ttestO (batteryGroup1 data group_col measure_col)
          (batteryGroup2 data group_col measure_col)).2
        significant := decide ((lib.ttestO (batteryGroup1 data group_col measure_col)
          (batteryGroup2 data group_col measure_col)).2 < ALPHA) }
    mann_whitney :=
      { statistic := (lib.mannwhitneyO (batteryGroup1 data group_col measure_col)
          (batteryGroup2 data group_col measure_col)).1
        p_value := (lib.mannwhitneyO (batteryGroup1 data group_col measure_col)
          (batteryGroup2 data group_col measure_col)).2
        significant := decide ((lib.mannwhitneyO (batteryGroup1 data group_col measure_col)
          (batteryGroup2 data group_col measure_col)).2 < ALPHA) }
    normality := test_normality lib.shapiroO data group_col measure_col
    homoscedasticity := test_homoscedasticity lib.leveneO data group_col measure_col
    recommended_test :=
      if recommendT lib data group_col measure_col then "t_test" else "mann_whitney"
    recommended_p :=
      if recommendT lib data group_col measure_col then
        (lib.ttestO (batteryGroup1 data group_col measure_col)
          (batteryGroup2 data group_col measure_col)).2
      else
        (lib.mannwhitneyO (batteryGroup1 data group_col measure_col)
          (batteryGroup2 data group_col measure_col)).2 }

/-- Embeds `run_statistical_tests(data, group_col, measure_col)`: validates that the
group column has exactly two distinct values, then assembles the bundle of
descriptives, effect sizes, t-test, Mann-Whitney, assumption checks and the
assumption-driven recommendation.  Exceptions raised inside the library
routines themselves are outside the model (the oracles are total). -/
def run_statistical_tests (lib : StatsLib) (data : Frame)
    (group_col measure_col : String) : Except BatteryError TestBundle :=
  let groups := uniqueCells (colCells data group_col)
  if groups.length ≠ 2 then
    .error (.valueError 2 groups.length groups)
  else
    .ok (buildBundle lib data group_col measure_col)

/-- A value of the dict returned by `analyze_subgroups`: a full bundle, the
stored `{'error': str(e)}` record from a caught `ValueError`, or the stored
`{'error': f'Insufficient sample size (n=..., min=...)'}` record (carrying
the observed count and the threshold). -/
inductive SubgroupEntry where
  | bundle (b : TestBundle)
  | errorRecord (e : BatteryError)
  | insufficient (observed required : ℕ)
deriving DecidableEq, Repr

/-- How `analyze_subgroups` stores the outcome of one `run_statistical_tests`
call: a successful bundle directly, a caught `ValueError` as an error
record. -/
def batteryOutcome : Except BatteryError TestBundle → SubgroupEntry
  | .ok b => .bundle b
  | .error e => .errorRecord e

/-- Embeds `subset = data[data[subgroup_col] == subgroup]` in `analyze_subgroups`. -/
def levelSubset (data : Frame) (subgroup_col : String) (sg : Cell) : Frame :=
  data.filter (fun r => (r subgroup_col).matches sg)

/-- The body executed by `analyze_subgroups` for one non-missing level. -/
def subgroupEntry (lib : StatsLib) (data : Frame) (subgroup_col outcome_col group_col : String)
    (ms : ℕ) (sg : Cell) : SubgroupEntry :=
  if ms ≤ (levelSubset data subgroup_col sg).length then
    batteryOutcome (run_statistical_tests lib (levelSubset data subgroup_col sg)
      group_col outcome_col)
  else
    .insufficient (levelSubset data subgroup_col sg).length ms

/-- Embeds `analyze_subgroups(data, subgroup_col, outcome_col, group_col, min_size)`:
iterate over the distinct values of the partition column, skip missing
levels (`pd.isna`), and store per level either the battery outcome (when the
level's row count meets the minimum) or the insufficiency record.
`min_size = none` models the `None` default resolved to
`MIN_SUBGROUP_SIZE`. -/
def analyze_subgroups (lib : StatsLib) (data : Frame) (subgroup_col : String)
    (outcome_col : String := "self_efficacy_change") (group_col : String := "group")
    (min_size : Option ℕ := none) : List (Cell × SubgroupEntry) :=
  let ms := min_size.getD MIN_SUBGROUP_SIZE
  (uniqueCells (colCells data subgroup_col)).filterMap (fun sg =>
    if sg = Cell.missing then none
    else some (sg, subgroupEntry lib data subgroup_col outcome_col group_col ms sg))

/-- Uninterpreted routines used by `power_analysis`: the standard normal
percent-point function `stats.norm.ppf`, the standard normal cdf
`stats.norm.cdf`, and `np.sqrt`. -/
structure NormLib where
  ppf : ℚ → ℚ
  cdf : ℚ → ℚ
  sqrtO : ℚ → ℚ

/-- The structural facts about the standard normal distribution (and the
square root) that the power-analysis arguments rely on; any faithful
interpretation of `stats.norm.cdf` / `stats.norm.ppf` / `np.sqrt`
satisfies them. -/
structure NormLib.Faithful (lib : NormLib) : Prop where
  cdf_symm : ∀ x, lib.cdf (-x) = 1 - lib.cdf x
  cdf_ppf : ∀ p, 0 < p → p < 1 → lib.cdf (lib.ppf p) = p
  cdf_mono : Monotone lib.cdf
  sqrt_mono : Monotone lib.sqrtO

/-- Embeds `power_analysis(effect_size, sample_size_per_group, alpha)`.
`scipy.stats` has no attribute `ttest_power`, so the `try` branch raises
`AttributeError` on every call and the `except AttributeError` fallback is
the code that runs: `z_score = effect_size * sqrt(n/2) - norm.ppf(1-alpha/2)`
and `power = norm.cdf(z_score)`, clamped to `[0, 1]` by `max(0, min(1, .))`.
(The fallback also computes an unused `z_beta`.)  `alpha = none` models the
`None` default resolved to `ALPHA`. -/
def power_analysis (lib : NormLib) (effect_size : ℚ) (sample_size_per_group : ℕ)
    (alpha : Option ℚ := none) : ℚ :=
  let alpha := alpha.getD ALPHA
  let z_alpha := lib.ppf (1 - alpha/2)
  let n : ℚ := (sample_size_per_group : ℚ)
  let delta := effect_size
  let z_score := delta * lib.sqrtO (n/2) - z_alpha
  let power := lib.cdf z_score
  max 0 (min 1 power)

/-- Result of the baseline-adjusted analyses: the explicit
`{'error': 'Insufficient data for baseline-adjusted analysis'}` record, or
whatever the model fit performed after the sample-size guard produces
(a fitted-result dict, or a caught-exception error record); the fitted
branch is abstract (`σ`) since no claim concerns its contents. -/
inductive BaselineResult (σ : Type) where
  | insufficientData
  | fitted (r : σ)
deriving DecidableEq, Repr

/-- Embeds `data[[outcome_col, baseline_col, group_col]].dropna()`: the rows with
no missing value in any of the three columns. -/
def dropna3 (data : Frame) (outcome_col baseline_col group_col : String) : Frame :=
  data.filter (fun r =>
    !((r outcome_col) == Cell.missing) && !((r baseline_col) == Cell.missing)
      && !((r group_col) == Cell.missing))

/-- Embeds `run_baseline_adjusted_fallback(data, outcome_col, baseline_col, group_col)`:
clean the data, return the insufficient-data record when fewer than 10
complete rows remain, and otherwise run the residual-score analysis — the
post-guard regression, test and record assembly are represented by the
uninterpreted `fitO`, consulted only when the guard passes. -/
def run_baseline_adjusted_fallback {σ : Type} (fitO : Frame → σ)
    (data : Frame) (outcome_col baseline_col : String)
    (group_col : String := "group") : BaselineResult σ :=
  let analysis_data := dropna3 data outcome_col baseline_col group_col
  if analysis_data.length < 10 then
    .insufficientData
  else
    .fitted (fitO analysis_data)

/-- Embeds `run_baseline_adjusted_analysis(data, outcome_col, baseline_col, group_col)`:
when `statsmodels` imports, clean the data, return the insufficient-data
record below 10 complete rows, and otherwise fit the ANCOVA model
(represented by the uninterpreted `ancovaO`, consulted only when the guard
passes); when the import fails, defer to the fallback. -/
def run_baseline_adjusted_analysis {σ : Type} (statsmodels_available : Bool)
    (ancovaO fitO : Frame → σ) (data : Frame)
    (outcome_col baseline_col : String) (group_col : String := "group") :
    BaselineResult σ :=
  if statsmodels_available then
    let analysis_data := dropna3 data outcome_col baseline_col group_col
    if analysis_data.length < 10 then
      .insufficientData
    else
      .fitted (ancovaO analysis_data)
  else
    run_baseline_adjusted_fallback fitO data outcome_col baseline_col group_col

/-! ### Concrete instantiations used by witnesses and counterexamples -/

/-- A concrete model of the standard normal cdf: a strictly increasing
sigmoid with the exact symmetry `cdf(-x) = 1 - cdf(x)` of the Gaussian cdf,
kept rational so that instances evaluate by `decide`. -/
def mcdf (x : ℚ) : ℚ := 1/2 + x / (2 * (1 + |x|))

/-- The exact inverse of `mcdf` on `(0, 1)`, modelling `stats.norm.ppf`. -/
def mppf (p : ℚ) : ℚ := (2*p - 1) / (1 - |2*p - 1|)

/-- A monotone rational model of `np.sqrt`: the secant of the square root
through `(1, 1)` and `(4, 2)`, agreeing with the square root at the
arguments the concrete instances use. -/
def msqrt (x : ℚ) : ℚ := (x + 2) / 3

/-- The model instantiation of the normal-distribution routines. -/
def mLib : NormLib := { ppf := mppf, cdf := mcdf, sqrtO := msqrt }

/-- A concrete instantiation of the scipy routines for witness evaluation. -/
def wStats : StatsLib :=
  { sqrtO := fun x => x
    shapiroO := fun _ => (0, 1/10)
    leveneO := fun _ => (0, 1/10)
    ttestO := fun _ _ => (0, 3/100)
    mannwhitneyO := fun _ _ => (0, 4/100) }

/-- Build a row from an association list; absent columns are missing. -/
def mkRow (l : List (String × Cell)) : Row := fun c =>
  (((l.find? (fun p => p.1 == c)).map (fun p => p.2)).getD Cell.missing)

/-- Witness table: two groups, one observation each. -/
def wFrame2 : Frame :=
  [mkRow [("group", .str "A"), ("m", .num 1)],
   mkRow [("group", .str "B"), ("m", .num 2)]]

/-- Witness table with a three-level group column. -/
def wFrameABC : Frame :=
  [mkRow [("group", .str "A"), ("m", .num 1)],
   mkRow [("group", .str "B"), ("m", .num 2)],
   mkRow [("group", .str "C"), ("m", .num 3)]]

/-- Witness table for the subgroup runner: level `X` has two rows but only
one treatment arm, level `Y` has two rows with both arms, level `Z` has a
single row, and one row has a missing level. -/
def wSub : Frame :=
  [mkRow [("sg", .str "X"), ("group", .str "A"), ("m", .num 1)],
   mkRow [("sg", .str "X"), ("group", .str "A"), ("m", .num 2)],
   mkRow [("sg", .str "Y"), ("group", .str "A"), ("m", .num 1)],
   mkRow [("sg", .str "Y"), ("group", .str "B"), ("m", .num 2)],
   mkRow [("sg", .str "Z"), ("group", .str "A"), ("m", .num 5)],
   mkRow [("group", .str "A"), ("m", .num 7)]]

/-- Witness table where group `A` has only missing outcome values. -/
def wFrameEmptyGroup : Frame :=
  [mkRow [("group", .str "A")],
   mkRow [("group", .str "A")],
   mkRow [("group", .str "B"), ("m", .num 1)]]

/-- Witness table with only 9 rows complete in outcome, baseline and group. -/
def wFrameSmall : Frame :=
  List.replicate 9 (mkRow [("post", .num 3), ("pre", .num 1), ("group", .str "AI")])
    ++ [mkRow [("post", .num 2), ("group", .str "Control")]]

/-! ### Helper lemmas -/

@[simp] theorem pMul_none_left (b : Option ℚ) : pMul none b = none := by cases b <;> rfl

@[simp] theorem pMul_none_right (a : Option ℚ) : pMul a none = none := by cases a <;> rfl

@[simp] theorem pAdd_none_left (b : Option ℚ) : pAdd none b = none := by cases b <;> rfl

@[simp] theorem pAdd_none_right (a : Option ℚ) : pAdd a none = none := by cases a <;> rfl

@[simp] theorem pDiv_none_left (b : Option ℚ) : pDiv none b = none := by cases b <;> rfl

@[simp] theorem pDiv_none_right (a : Option ℚ) : pDiv a none = none := by cases a <;> rfl

@[simp] theorem pSub_none_right (a : Option ℚ) : pSub a none = none := by cases a <;> rfl

theorem seriesVar_none_of_short {l : List ℚ} (h : l.length < 2) : seriesVar l = none := by
  simp [seriesVar, h]

theorem cohenD_none_left (sqrtO : ℚ → ℚ) (g1 g2 : List ℚ) (h : g1.length < 2) :
    cohenD sqrtO g1 g2 = none := by
  simp [cohenD, seriesVar_none_of_short h]

theorem cohenD_none_right (sqrtO : ℚ → ℚ) (g1 g2 : List ℚ) (h : g2.length < 2) :
    cohenD sqrtO g1 g2 = none := by
  simp [cohenD, seriesVar_none_of_short h]

theorem cohenD_some_lengths {sqrtO : ℚ → ℚ} {g1 g2 : List ℚ} {d : ℚ}
    (h : cohenD sqrtO g1 g2 = some d) : 2 ≤ g1.length ∧ 2 ≤ g2.length := by
  constructor
  · by_contra hlt
    push_neg at hlt
    rw [cohenD_none_left sqrtO g1 g2 hlt] at h
    exact Option.noConfusion h
  · by_contra hlt
    push_neg at hlt
    rw [cohenD_none_right sqrtO g1 g2 hlt] at h
    exact Option.noConfusion h

theorem hedgesCorrection_abs_le {n1 n2 : ℕ} (h1 : 2 ≤ n1) (h2 : 2 ≤ n2) :
    |hedgesCorrection n1 n2| ≤ 1 := by
  unfold hedgesCorrection
  have hc1 : (2:ℚ) ≤ (n1 : ℚ) := by exact_mod_cast h1
  have hc2 : (2:ℚ) ≤ (n2 : ℚ) := by exact_mod_cast h2
  have hN : (7:ℚ) ≤ 4 * ((n1 : ℚ) + (n2 : ℚ)) - 9 := by linarith
  have hpos : (0:ℚ) < 4 * ((n1 : ℚ) + (n2 : ℚ)) - 9 := by linarith
  have hlo : (0:ℚ) < 3 / (4 * ((n1 : ℚ) + (n2 : ℚ)) - 9) := by positivity
  have hhi : 3 / (4 * ((n1 : ℚ) + (n2 : ℚ)) - 9) ≤ 3 / 7 := by
    rw [div_le_div_iff₀ hpos (by norm_num)]
    linarith
  rw [abs_le]
  constructor <;> linarith

theorem mem_uniqueAux (seen l : List Cell) (c : Cell) :
    c ∈ uniqueAux seen l ↔ c ∈ l ∧ c ∉ seen := by
  induction l generalizing seen with
  | nil => simp [uniqueAux]
  | cons a rest ih =>
    by_cases ha : a ∈ seen
    · rw [uniqueAux, if_pos ha, ih]
      constructor
      · rintro ⟨h1, h2⟩
        exact ⟨List.mem_cons_of_mem _ h1, h2⟩
      · rintro ⟨h1, h2⟩
        rcases List.mem_cons.mp h1 with rfl | h1
        · exact absurd ha h2
        · exact ⟨h1, h2⟩
    · rw [uniqueAux, if_neg ha]
      constructor
      · intro h
        rcases List.mem_cons.mp h with rfl | h
        · exact ⟨List.mem_cons_self _ _, ha⟩
        · rw [ih] at h
          obtain ⟨h1, h2⟩ := h
          exact ⟨List.mem_cons_of_mem _ h1,
            fun hcs => h2 (List.mem_cons_of_mem _ hcs)⟩
      · rintro ⟨h1, h2⟩
        rcases List.mem_cons.mp h1 with rfl | h1
        · exact List.mem_cons_self _ _
        · by_cases hca : c = a
          · subst hca
            exact List.mem_cons_self _ _
          · refine List.mem_cons_of_mem _ ?_
            rw [ih]
            refine ⟨h1, fun hm => ?_⟩
            rcases List.mem_cons.mp hm with h | h
            · exact hca h
            · exact h2 h

theorem mem_uniqueCells (l : List Cell) (c : Cell) : c ∈ uniqueCells l ↔ c ∈ l := by
  rw [uniqueCells, mem_uniqueAux]
  simp

theorem lookup_filterMap_keyed {β : Type} (f : Cell → Option (Cell × β))
    (hf : ∀ c p, f c = some p → p.1 = c) (ks : List Cell) (level : Cell)
    (hmem : level ∈ ks) (e : β) (hsome : f level = some (level, e)) :
    (ks.filterMap f).lookup level = some e := by
  induction ks with
  | nil => cases hmem
  | cons k rest ih =>
    rw [List.filterMap_cons]
    rcases List.mem_cons.mp hmem with rfl | hmemr
    · rw [hsome]
      simp [List.lookup]
    · cases hk : f k with
      | none => exact ih hmemr
      | some p =>
        by_cases hek : k = level
        · subst hek
          rw [hk] at hsome
          have hpe : p = (k, e) := Option.some.inj hsome.symm |>.symm
          subst hpe
          simp [List.lookup]
        · have hp1 : p.1 = k := hf k p hk
          rcases p with ⟨k1, b⟩
          simp only at hp1
          subst hp1
          simp only [List.lookup]
          rw [show (level == k1) = false from beq_eq_false_iff_ne.mpr (Ne.symm hek)]
          exact ih hmemr

theorem lookup_map_keyed {β : Type} (g : Cell → β) (ks : List Cell) (level : Cell)
    (hmem : level ∈ ks) :
    (ks.map (fun c => (c, g c))).lookup level = some (g level) := by
  induction ks with
  | nil => cases hmem
  | cons k rest ih =>
    rcases List.mem_cons.mp hmem with rfl | hmemr
    · simp [List.lookup]
    · by_cases hek : k = level
      · subst hek
        simp [List.lookup]
      · simp only [List.map_cons, List.lookup]
        rw [show (level == k) = false from beq_eq_false_iff_ne.mpr (Ne.symm hek)]
        exact ih hmemr

theorem normality_all_iff (norm : List (Cell × NormalityResult)) :
    ((norm.filter (fun p => p.2.is_normal.isSome)).all (fun p => p.2.is_normal.getD false))
      = true
    ↔ (∀ p ∈ norm, ∀ v, p.2.is_normal = some v → v = true) := by
  rw [List.all_eq_true]
  constructor
  · intro h p hp v hv
    have hmem : p ∈ norm.filter (fun p => p.2.is_normal.isSome) :=
      List.mem_filter.mpr ⟨hp, by simp [hv]⟩
    have hval := h p hmem
    rw [hv] at hval
    simpa using hval
  · intro h p hp
    obtain ⟨hp1, hp2⟩ := List.mem_filter.mp hp
    cases hv : p.2.is_normal with
    | none =>
      rw [hv] at hp2
      simp at hp2
    | some v =>
      simp [hv, h p hp1 v hv]

theorem mcdf_symm (x : ℚ) : mcdf (-x) = 1 - mcdf x := by
  unfold mcdf
  rw [abs_neg]
  ring

theorem mcdf_mppf (p : ℚ) (h0 : 0 < p) (h1 : p < 1) : mcdf (mppf p) = p := by
  have ht : |2*p - 1| < 1 := by
    rw [abs_lt]
    constructor <;> linarith
  have hpos : (0:ℚ) < 1 - |2*p - 1| := by linarith
  have hne : (1 - |2*p - 1|) ≠ 0 := ne_of_gt hpos
  have habs : |mppf p| = |2*p - 1| / (1 - |2*p - 1|) := by
    unfold mppf
    rw [abs_div, abs_of_pos hpos]
  unfold mcdf
  rw [habs]
  unfold mppf
  rw [show (1 : ℚ) + |2*p - 1| / (1 - |2*p - 1|) = 1 / (1 - |2*p - 1|) from by field_simp]
  field_simp

theorem mcdf_mono : Monotone mcdf := by
  intro a b hab
  unfold mcdf
  have h1 : (0:ℚ) < 1 + |a| := by positivity
  have h2 : (0:ℚ) < 1 + |b| := by positivity
  have key : a * (1 + |b|) ≤ b * (1 + |a|) := by
    rcases le_or_lt 0 a with ha | ha
    · have hb : (0:ℚ) ≤ b := le_trans ha hab
      rw [abs_of_nonneg ha, abs_of_nonneg hb]
      nlinarith
    · rcases le_or_lt 0 b with hb | hb
      · have l1 : a * (1 + |b|) < 0 := mul_neg_of_neg_of_pos ha h2
        have l2 : (0:ℚ) ≤ b * (1 + |a|) := mul_nonneg hb (le_of_lt h1)
        linarith
      · rw [abs_of_neg ha, abs_of_neg hb]
        nlinarith
  have hq : a / (1 + |a|) ≤ b / (1 + |b|) := (div_le_div_iff₀ h1 h2).mpr key
  have e1 : a / (2 * (1 + |a|)) = a / (1 + |a|) / 2 := by
    rw [div_div, mul_comm]
  have e2 : b / (2 * (1 + |b|)) = b / (1 + |b|) / 2 := by
    rw [div_div, mul_comm]
  rw [e1, e2]
  linarith

theorem msqrt_mono : Monotone msqrt := by
  intro a b hab
  unfold msqrt
  linarith

theorem mLib_faithful : mLib.Faithful :=
  { cdf_symm := mcdf_symm
    cdf_ppf := mcdf_mppf
    cdf_mono := mcdf_mono
    sqrt_mono := msqrt_mono }

/-! ### Claim theorems -/

/-- C1: whenever `run_statistical_tests` returns a bundle (which it does
exactly when the group column has two distinct values), the bundle's
`recommended_test` is `"t_test"` iff every group whose normality result is
defined has `is_normal` true and the homoscedasticity result has
`equal_variances` true — otherwise it is `"mann_whitney"` — and
`recommended_p` is the p-value of the recommended test. -/
theorem C1_recommended_test_policy (lib : StatsLib) (data : Frame)
    (group_col measure_col : String)
    (h2 : (uniqueCells (colCells data group_col)).length = 2) :
    ∃ b, run_statistical_tests lib data group_col measure_col = Except.ok b ∧
      (b.recommended_test = "t_test" ∨ b.recommended_test = "mann_whitney") ∧
      (b.recommended_test = "t_test" ↔
        ((∀ p ∈ b.normality, ∀ v, p.2.is_normal = some v → v = true) ∧
          b.homoscedasticity.equal_variances = some true)) ∧
      (b.recommended_test = "t_test" → b.recommended_p = b.t_test.p_value) ∧
      (b.recommended_test = "mann_whitney" → b.recommended_p = b.mann_whitney.p_value) := by
  refine ⟨buildBundle lib data group_col measure_col, ?_, ?_, ?_, ?_, ?_⟩
  · simp only [run_statistical_tests]
    rw [if_neg (by simp [h2])]
  · by_cases hr : recommendT lib data group_col measure_col <;>
      simp [buildBundle, hr]
  · by_cases hr : recommendT lib data group_col measure_col
    · have hrt : (buildBundle lib data group_col measure_col).recommended_test = "t_test" := by
        simp [buildBundle, hr]
      rw [hrt]
      constructor
      · intro _
        unfold recommendT at hr
        rw [Bool.and_eq_true] at hr
        exact ⟨(normality_all_iff _).mp hr.1, of_decide_eq_true hr.2⟩
      · intro _
        rfl
    · have hrt : (buildBundle lib data group_col measure_col).recommended_test
          = "mann_whitney" := by
        simp [buildBundle, hr]
      rw [hrt]
      constructor
      · intro h
        exact absurd h (by decide)
      · rintro ⟨hall, heqv⟩
        exfalso
        apply hr
        unfold recommendT
        rw [Bool.and_eq_true]
        exact ⟨(normality_all_iff _).mpr hall, decide_eq_true heqv⟩
  · intro hrt
    by_cases hr : recommendT lib data group_col measure_col
    · simp [buildBundle, hr]
    · have : (buildBundle lib data group_col measure_col).recommended_test
          = "mann_whitney" := by simp [buildBundle, hr]
      rw [this] at hrt
      exact absurd hrt (by decide)
  · intro hrt
    by_cases hr : recommendT lib data group_col measure_col
    · have : (buildBundle lib data group_col measure_col).recommended_test = "t_test" := by
        simp [buildBundle, hr]
      rw [this] at hrt
      exact absurd hrt (by decide)
    · simp [buildBundle, hr]

/-- Witness for C1 on the two-group table `wFrame2` with the `wStats`
oracles. -/
theorem C1_recommended_test_policy_witness :
    (uniqueCells (colCells wFrame2 "group")).length = 2 ∧
    (∃ b, run_statistical_tests wStats wFrame2 "group" "m" = Except.ok b ∧
      (b.recommended_test = "t_test" ∨ b.recommended_test = "mann_whitney") ∧
      (b.recommended_test = "t_test" ↔
        ((∀ p ∈ b.normality, ∀ v, p.2.is_normal = some v → v = true) ∧
          b.homoscedasticity.equal_variances = some true)) ∧
      (b.recommended_test = "t_test" → b.recommended_p = b.t_test.p_value) ∧
      (b.recommended_test = "mann_whitney" → b.recommended_p = b.mann_whitney.p_value)) :=
  ⟨by with_unfolding_all decide,
    C1_recommended_test_policy wStats wFrame2 "group" "m" (by with_unfolding_all decide)⟩

/-- C2: `run_statistical_tests` signals its validation error — and returns
no bundle — exactly when the group column does not have exactly two distinct
values; in particular it does so on the three-level group column
`{"A","B","C"}`. -/
theorem C2_two_group_validation (lib : StatsLib) (data : Frame)
    (group_col measure_col : String) :
    (run_statistical_tests lib data group_col measure_col
        = Except.error (.valueError 2 (uniqueCells (colCells data group_col)).length
            (uniqueCells (colCells data group_col)))
      ↔ (uniqueCells (colCells data group_col)).length ≠ 2) ∧
    run_statistical_tests lib wFrameABC "group" "m"
      = Except.error (.valueError 2 3 [.str "A", .str "B", .str "C"]) := by
  constructor
  · constructor
    · intro h hlen
      simp only [run_statistical_tests] at h
      rw [if_neg (by simp [hlen])] at h
      exact Except.noConfusion h
    · intro hne
      simp only [run_statistical_tests]
      rw [if_pos hne]
  · have habc : uniqueCells (colCells wFrameABC "group")
        = [.str "A", .str "B", .str "C"] := by with_unfolding_all decide
    simp only [run_statistical_tests, habc]
    rfl

theorem analyze_subgroups_lookup (lib : StatsLib) (data : Frame)
    (subgroup_col outcome_col group_col : String) (min_size : Option ℕ) (level : Cell)
    (hmem : level ∈ colCells data subgroup_col) (hnm : level ≠ Cell.missing) :
    (analyze_subgroups lib data subgroup_col outcome_col group_col min_size).lookup level
      = some (subgroupEntry lib data subgroup_col outcome_col group_col
          (min_size.getD MIN_SUBGROUP_SIZE) level) := by
  simp only [analyze_subgroups]
  apply lookup_filterMap_keyed
  · intro c p hp
    by_cases hc : c = Cell.missing
    · rw [if_pos hc] at hp
      exact Option.noConfusion hp
    · rw [if_neg hc] at hp
      rw [← Option.some.inj hp]
  · exact (mem_uniqueCells _ _).mpr hmem
  · rw [if_neg hnm]

/-- C3: `analyze_subgroups` never propagates the battery's validation error:
a non-missing level whose subset meets the minimum size but does not have
exactly two distinct group values is stored as a converted error record, and
every other non-missing level still receives an entry of its own. -/
theorem C3_subgroup_error_isolation (lib : StatsLib) (data : Frame)
    (subgroup_col outcome_col group_col : String) (min_size : Option ℕ) (level : Cell)
    (hmem : level ∈ colCells data subgroup_col) (hnm : level ≠ Cell.missing)
    (hsize : min_size.getD MIN_SUBGROUP_SIZE ≤ (levelSubset data subgroup_col level).length)
    (hgroups : (uniqueCells (colCells (levelSubset data subgroup_col level)
        group_col)).length ≠ 2) :
    (analyze_subgroups lib data subgroup_col outcome_col group_col min_size).lookup level
      = some (.errorRecord (.valueError 2
          (uniqueCells (colCells (levelSubset data subgroup_col level) group_col)).length
          (uniqueCells (colCells (levelSubset data subgroup_col level) group_col)))) ∧
    (∀ l ∈ colCells data subgroup_col, l ≠ Cell.missing →
      ((analyze_subgroups lib data subgroup_col outcome_col group_col min_size).lookup
          l).isSome) := by
  constructor
  · rw [analyze_subgroups_lookup lib data subgroup_col outcome_col group_col min_size level
      hmem hnm]
    unfold subgroupEntry
    rw [if_pos hsize]
    simp only [run_statistical_tests]
    rw [if_pos hgroups]
    rfl
  · intro l hl hlnm
    rw [analyze_subgroups_lookup lib data subgroup_col outcome_col group_col min_size l
      hl hlnm]
    rfl

/-- Witness for C3 on `wSub` with `min_size = 2`: level `X` has enough rows
but a single treatment arm and is stored as an error record, while levels
`Y` and `Z` still receive entries. -/
theorem C3_subgroup_error_isolation_witness :
    ((Cell.str "X") ∈ colCells wSub "sg" ∧
      (2 : ℕ) ≤ (levelSubset wSub "sg" (Cell.str "X")).length ∧
      (uniqueCells (colCells (levelSubset wSub "sg" (Cell.str "X")) "group")).length ≠ 2) ∧
    (analyze_subgroups wStats wSub "sg" "m" "group" (some 2)).lookup (Cell.str "X")
      = some (.errorRecord (.valueError 2
          (uniqueCells (colCells (levelSubset wSub "sg" (Cell.str "X")) "group")).length
          (uniqueCells (colCells (levelSubset wSub "sg" (Cell.str "X")) "group")))) ∧
    ((analyze_subgroups wStats wSub "sg" "m" "group" (some 2)).lookup (Cell.str "Y")).isSome ∧
    ((analyze_subgroups wStats wSub "sg" "m" "group" (some 2)).lookup (Cell.str "Z")).isSome :=
  ⟨⟨by with_unfolding_all decide, by with_unfolding_all decide, by with_unfolding_all decide⟩,
    (C3_subgroup_error_isolation wStats wSub "sg" "m" "group" (some 2) (Cell.str "X")
      (by with_unfolding_all decide) (by decide) (by with_unfolding_all decide)
      (by with_unfolding_all decide)).1,
    (C3_subgroup_error_isolation wStats wSub "sg" "m" "group" (some 2) (Cell.str "X")
      (by with_unfolding_all decide) (by decide) (by with_unfolding_all decide)
      (by with_unfolding_all decide)).2 (Cell.str "Y")
      (by with_unfolding_all decide) (by decide),
    (C3_subgroup_error_isolation wStats wSub "sg" "m" "group" (some 2) (Cell.str "X")
      (by with_unfolding_all decide) (by decide) (by with_unfolding_all decide)
      (by with_unfolding_all decide)).2 (Cell.str "Z")
      (by with_unfolding_all decide) (by decide)⟩

/-- C4: in `analyze_subgroups`, a non-missing level with exactly
`min_size - 1` rows is stored as the insufficiency record carrying the
observed count `min_size - 1` and the threshold `min_size` (no test is run),
while a level with at least `min_size` rows has the full battery run on its
subset, its resulting bundle stored when the battery returns one. -/
theorem C4_subgroup_size_gate (lib : StatsLib) (data : Frame)
    (subgroup_col outcome_col group_col : String) (min_size : Option ℕ) (level : Cell)
    (hmem : level ∈ colCells data subgroup_col) (hnm : level ≠ Cell.missing)
    (hms : 1 ≤ min_size.getD MIN_SUBGROUP_SIZE) :
    ((levelSubset data subgroup_col level).length = min_size.getD MIN_SUBGROUP_SIZE - 1 →
      (analyze_subgroups lib data subgroup_col outcome_col group_col min_size).lookup level
        = some (.insufficient (min_size.getD MIN_SUBGROUP_SIZE - 1)
            (min_size.getD MIN_SUBGROUP_SIZE))) ∧
    (min_size.getD MIN_SUBGROUP_SIZE ≤ (levelSubset data subgroup_col level).length →
      (analyze_subgroups lib data subgroup_col outcome_col group_col min_size).lookup level
        = some (batteryOutcome (run_statistical_tests lib
            (levelSubset data subgroup_col level) group_col outcome_col)) ∧
      ∀ b, run_statistical_tests lib (levelSubset data subgroup_col level)
            group_col outcome_col = Except.ok b →
        (analyze_subgroups lib data subgroup_col outcome_col group_col min_size).lookup level
          = some (.bundle b)) := by
  constructor
  · intro hlen
    rw [analyze_subgroups_lookup lib data subgroup_col outcome_col group_col min_size level
      hmem hnm]
    unfold subgroupEntry
    rw [if_neg (by omega), hlen]
  · intro hge
    have hl := analyze_subgroups_lookup lib data subgroup_col outcome_col group_col
      min_size level hmem hnm
    refine ⟨?_, ?_⟩
    · rw [hl]
      unfold subgroupEntry
      rw [if_pos hge]
    · intro b hb
      rw [hl]
      unfold subgroupEntry
      rw [if_pos hge, hb]
      rfl

/-- Witness for C4 on `wSub` with `min_size = 2`: level `Z` has exactly one
row and is stored as `insufficient 1 2`; level `Y` has exactly two rows and
is stored as the battery outcome on its subset. -/
theorem C4_subgroup_size_gate_witness :
    ((levelSubset wSub "sg" (Cell.str "Z")).length = 1 ∧
      (2 : ℕ) ≤ (levelSubset wSub "sg" (Cell.str "Y")).length) ∧
    (analyze_subgroups wStats wSub "sg" "m" "group" (some 2)).lookup (Cell.str "Z")
      = some (.insufficient 1 2) ∧
    (analyze_subgroups wStats wSub "sg" "m" "group" (some 2)).lookup (Cell.str "Y")
      = some (batteryOutcome (run_statistical_tests wStats
          (levelSubset wSub "sg" (Cell.str "Y")) "group" "m")) :=
  ⟨⟨by with_unfolding_all decide, by with_unfolding_all decide⟩,
    (C4_subgroup_size_gate wStats wSub "sg" "m" "group" (some 2) (Cell.str "Z")
      (by with_unfolding_all decide) (by decide) (by decide)).1
      (by with_unfolding_all decide),
    ((C4_subgroup_size_gate wStats wSub "sg" "m" "group" (some 2) (Cell.str "Y")
      (by with_unfolding_all decide) (by decide) (by decide)).2
      (by with_unfolding_all decide)).1⟩

/-- C5 (amended): at effect size 0 the power returned by the
always-executed normal-approximation fallback of `power_analysis` is exactly
`alpha / 2`, for every per-group sample size and every `alpha` in `(0, 1)` —
not approximately `alpha` as the claim states: the approximation counts only
the upper rejection tail. -/
theorem C5_power_at_zero_effect (lib : NormLib) (hf : lib.Faithful) (n : ℕ)
    (alpha : ℚ) (h0 : 0 < alpha) (h1 : alpha < 1) :
    power_analysis lib 0 n (some alpha) = alpha / 2 := by
  unfold power_analysis
  simp only [Option.getD_some]
  have hp0 : (0:ℚ) < 1 - alpha/2 := by linarith
  have hp1 : 1 - alpha/2 < 1 := by linarith
  have hz : lib.cdf (0 * lib.sqrtO ((n:ℚ)/2) - lib.ppf (1 - alpha/2)) = alpha/2 := by
    rw [zero_mul, zero_sub, hf.cdf_symm, hf.cdf_ppf _ hp0 hp1]
    ring
  rw [hz, min_eq_right (by linarith), max_eq_right (by linarith)]

/-- Counterexample to C5 as stated: with a faithful normal model, at
`alpha = 0.05` and `n = 16` the power at effect size 0 is `1/40 = alpha/2`,
which is not approximately `alpha` (it misses even a 25%-of-alpha
tolerance). -/
theorem C5_power_at_zero_counterexample :
    mLib.Faithful ∧
    power_analysis mLib 0 16 (some ALPHA) = ALPHA / 2 ∧
    ¬ (|power_analysis mLib 0 16 (some ALPHA) - ALPHA| ≤ ALPHA / 4) :=
  ⟨mLib_faithful, by with_unfolding_all decide, by with_unfolding_all decide⟩

/-- Witness for the amended C5 at `n = 16`, `alpha = ALPHA = 1/20`. -/
theorem C5_power_at_zero_effect_witness :
    ((0:ℚ) < ALPHA ∧ ALPHA < 1) ∧
    power_analysis mLib 0 16 (some ALPHA) = ALPHA / 2 :=
  ⟨⟨by with_unfolding_all decide, by with_unfolding_all decide⟩,
    C5_power_at_zero_effect mLib mLib_faithful 16 ALPHA
      (by with_unfolding_all decide) (by with_unfolding_all decide)⟩

/-- C6 (amended): for every NONNEGATIVE effect size and fixed alpha,
`power_analysis` is monotonically non-decreasing in the per-group sample
size.  (The code uses the signed effect size, not its magnitude, so the
claim's unrestricted quantification fails; see the counterexample.) -/
theorem C6_power_monotone_nonneg_effect (lib : NormLib) (hf : lib.Faithful)
    (effect_size : ℚ) (hd : 0 ≤ effect_size) (alpha : ℚ) (n1 n2 : ℕ) (hn : n1 ≤ n2) :
    power_analysis lib effect_size n1 (some alpha)
      ≤ power_analysis lib effect_size n2 (some alpha) := by
  unfold power_analysis
  simp only [Option.getD_some]
  have hcast : ((n1:ℚ)) ≤ (n2:ℚ) := by exact_mod_cast hn
  have hs : lib.sqrtO ((n1:ℚ)/2) ≤ lib.sqrtO ((n2:ℚ)/2) := hf.sqrt_mono (by linarith)
  have hz : effect_size * lib.sqrtO ((n1:ℚ)/2) - lib.ppf (1 - alpha/2)
      ≤ effect_size * lib.sqrtO ((n2:ℚ)/2) - lib.ppf (1 - alpha/2) := by
    have hmul := mul_le_mul_of_nonneg_left hs hd
    linarith
  exact max_le_max (le_refl _) (min_le_min (le_refl _) (hf.cdf_mono hz))

/-- Counterexample to C6 as stated: with a faithful normal model, at effect
size `-1` (the code does not take the magnitude) and `alpha = 0.05`, the
power strictly DECREASES from `n = 2` to `n = 8`. -/
theorem C6_power_monotone_counterexample :
    mLib.Faithful ∧ (2:ℕ) ≤ 8 ∧
    power_analysis mLib (-1) 8 (some ALPHA) < power_analysis mLib (-1) 2 (some ALPHA) :=
  ⟨mLib_faithful, by decide, by with_unfolding_all decide⟩

/-- Witness for the amended C6 at effect size 1, `n1 = 2 ≤ n2 = 8`. -/
theorem C6_power_monotone_nonneg_effect_witness :
    ((0:ℚ) ≤ 1 ∧ (2:ℕ) ≤ 8) ∧
    power_analysis mLib 1 2 (some ALPHA) ≤ power_analysis mLib 1 8 (some ALPHA) :=
  ⟨⟨by with_unfolding_all decide, by decide⟩,
    C6_power_monotone_nonneg_effect mLib mLib_faithful 1
      (by with_unfolding_all decide) ALPHA 2 8 (by decide)⟩

/-- C9: whenever fewer than 10 rows are complete in the outcome, baseline
and group columns, both `run_baseline_adjusted_analysis` (on the ANCOVA path
for either availability of statsmodels) and `run_baseline_adjusted_fallback`
return the explicit insufficient-data record without consulting the model
fit (the result holds for every fit function). -/
theorem C9_baseline_min_sample_guard {σ : Type} (statsmodels_available : Bool)
    (ancovaO fitO : Frame → σ) (data : Frame) (outcome_col baseline_col group_col : String)
    (h : (dropna3 data outcome_col baseline_col group_col).length < 10) :
    run_baseline_adjusted_analysis statsmodels_available ancovaO fitO data
        outcome_col baseline_col group_col = .insufficientData ∧
    run_baseline_adjusted_fallback fitO data outcome_col baseline_col group_col
      = .insufficientData := by
  constructor
  · unfold run_baseline_adjusted_analysis
    cases statsmodels_available
    · rw [if_neg (by simp)]
      unfold run_baseline_adjusted_fallback
      rw [if_pos h]
    · rw [if_pos rfl]
      exact if_pos h
  · unfold run_baseline_adjusted_fallback
    rw [if_pos h]

/-- Witness for C9 on the 9-complete-row table `wFrameSmall`. -/
theorem C9_baseline_min_sample_guard_witness :
    (dropna3 wFrameSmall "post" "pre" "group").length < 10 ∧
    run_baseline_adjusted_analysis true (fun _ => (0:ℕ)) (fun _ => (0:ℕ)) wFrameSmall
        "post" "pre" "group" = .insufficientData ∧
    run_baseline_adjusted_fallback (fun _ => (0:ℕ)) wFrameSmall "post" "pre" "group"
      = .insufficientData :=
  ⟨by with_unfolding_all decide,
    (C9_baseline_min_sample_guard true (fun _ => (0:ℕ)) (fun _ => (0:ℕ)) wFrameSmall
      "post" "pre" "group" (by with_unfolding_all decide)).1,
    (C9_baseline_min_sample_guard true (fun _ => (0:ℕ)) (fun _ => (0:ℕ)) wFrameSmall
      "post" "pre" "group" (by with_unfolding_all decide)).2⟩

/-- C7: for every pair of numeric samples on which both are defined (finite),
the magnitude of Hedges' g — Cohen's d times the bias-correction factor
`1 - 3/(4*(n1+n2) - 9)` — is at most the magnitude of Cohen's d. -/
theorem C7_hedges_g_le_cohen_d (sqrtO : ℚ → ℚ) (group1 group2 : List ℚ) (d g : ℚ)
    (hd : calculate_effect_size sqrtO group1 group2 "cohen_d" = some (some d))
    (hg : calculate_effect_size sqrtO group1 group2 "hedges_g" = some (some g)) :
    |g| ≤ |d| := by
  have hd' : cohenD sqrtO group1 group2 = some d := by
    simpa [calculate_effect_size] using hd
  have hmul : pMul (cohenD sqrtO group1 group2)
      (some (hedgesCorrection group1.length group2.length)) = some g := by
    simpa [calculate_effect_size] using hg
  rw [hd'] at hmul
  have hgd : g = d * hedgesCorrection group1.length group2.length := by
    simpa [pMul] using hmul.symm
  obtain ⟨h1, h2⟩ := cohenD_some_lengths hd'
  have hc := hedgesCorrection_abs_le h1 h2
  calc |g| = |d| * |hedgesCorrection group1.length group2.length| := by
        rw [hgd, abs_mul]
    _ ≤ |d| * 1 := mul_le_mul_of_nonneg_left hc (abs_nonneg d)
    _ = |d| := mul_one _

/-- Witness for C7 at `group1 = [1,2,3]`, `group2 = [3,4,5]` (pooled variance
1, Cohen's d = -2, Hedges' g = -8/5). -/
theorem C7_hedges_g_le_cohen_d_witness :
    calculate_effect_size (fun x => x) [1, 2, 3] [3, 4, 5] "cohen_d" = some (some (-2)) ∧
    calculate_effect_size (fun x => x) [1, 2, 3] [3, 4, 5] "hedges_g" = some (some (-8/5)) ∧
    |(-8/5 : ℚ)| ≤ |(-2 : ℚ)| :=
  ⟨by with_unfolding_all decide, by with_unfolding_all decide,
    C7_hedges_g_le_cohen_d (fun x => x) [1, 2, 3] [3, 4, 5] (-2) (-8/5)
      (by with_unfolding_all decide) (by with_unfolding_all decide)⟩

/-- C8: a group value present in the group column whose outcome values are
all missing yields the record with `n = 0` and NaN (`none`) for mean, std,
median, q25, q75, min and max; `calculate_descriptive_stats` is total, so no
error is raised. -/
theorem C8_empty_group_descriptives (sqrtO : ℚ → ℚ) (data : Frame)
    (group_col measure_col : String) (g : Cell)
    (hg : g ∈ colCells data group_col)
    (hempty : groupData data group_col g measure_col = []) :
    (calculate_descriptive_stats sqrtO data group_col measure_col).lookup g
      = some { n := 0, mean := none, std := none, median := none,
               q25 := none, q75 := none, min := none, max := none } := by
  have hmem : g ∈ uniqueCells (colCells data group_col) := (mem_uniqueCells _ _).mpr hg
  unfold calculate_descriptive_stats
  rw [lookup_map_keyed _ _ _ hmem]
  rw [hempty]
  simp [seriesMean, seriesVar, seriesMedian, seriesQuantile, seriesMin, seriesMax]

/-- Witness for C8: in `wFrameEmptyGroup`, group `A` appears but all its
outcome values are missing. -/
theorem C8_empty_group_descriptives_witness :
    (Cell.str "A" ∈ colCells wFrameEmptyGroup "group" ∧
      groupData wFrameEmptyGroup "group" (Cell.str "A") "m" = []) ∧
    (calculate_descriptive_stats (fun x => x) wFrameEmptyGroup "group" "m").lookup
        (Cell.str "A")
      = some { n := 0, mean := none, std := none, median := none,
               q25 := none, q75 := none, min := none, max := none } :=
  ⟨⟨by with_unfolding_all decide, by with_unfolding_all decide⟩,
    C8_empty_group_descriptives (fun x => x) wFrameEmptyGroup "group" "m" (Cell.str "A")
      (by with_unfolding_all decide) (by with_unfolding_all decide)⟩

/-- C10: for every method string other than the three recognized ones,
`calculate_effect_size` falls through every branch and returns Python's
`None` — no exception, no numeric or NaN effect size. -/
theorem C10_unknown_method_none (sqrtO : ℚ → ℚ) (group1 group2 : List ℚ) (method : String)
    (h1 : method ≠ "cohen_d") (h2 : method ≠ "glass_delta") (h3 : method ≠ "hedges_g") :
    calculate_effect_size sqrtO group1 group2 method = none := by
  simp [calculate_effect_size, h1, h2, h3]

/-- Witness for C10 at the unrecognized method string `"bogus"`. -/
theorem C10_unknown_method_none_witness :
    ("bogus" ≠ "cohen_d" ∧ "bogus" ≠ "glass_delta" ∧ "bogus" ≠ "hedges_g") ∧
    calculate_effect_size (fun x => x) [1] [2] "bogus" = none :=
  ⟨⟨by decide, by decide, by decide⟩,
    C10_unknown_method_none (fun x => x) [1] [2] "bogus"
      (by decide) (by decide) (by decide)⟩

end DataAnalysis
